import Mathlib

/-!
Verification of the response-normalization core of the AI-Code-Reviewer backend
(`src/BackEnd/src/services/ai.service.js`, function `generateContent`).

The JavaScript values that flow through the normalizer are modelled by the
inductive type `JSVal`: a tree of null / undefined / booleans / integers /
strings / arrays / objects.  Reference cycles, which a tree cannot carry
directly, are modelled by two marker constructors for the back part of the
cycle: `cyclic` stands for an object that participates in a reference cycle
(e.g. `x = {}; x.self = x`): `JSON.stringify` throws on it and `String()`
renders it as "[object Object]".  `selfref` stands for a back-edge to an
array that is currently being traversed (the element of `a` in
`a = []; a.push(a)`): `JSON.stringify` throws on it, and
`Array.prototype.join`'s cycle guard renders it as the empty string, so
`String(a)` of a self-referential array is `""`.  On both markers the
specific property names the normalizer probes are absent (as they are on
the example cycles above); cycles whose members carry those properties, or
whose member arrays would have to be traversed again, are outside the
model.  Numbers are modelled as integers (the code never does arithmetic
on them).  Object field lists are taken key-unique, as JavaScript object
property tables are.
-/

namespace AIService

inductive JSVal : Type where
  | null : JSVal
  | undefined : JSVal
  | bool (b : Bool) : JSVal
  | num (n : Int) : JSVal
  | str (s : String) : JSVal
  | arr (xs : List JSVal) : JSVal
  | obj (fs : List (String × JSVal)) : JSVal
  | cyclic : JSVal
  | selfref : JSVal

/-- JavaScript `v === null || v === undefined` (the values `??` and `?.` test for). -/
def isNullish : JSVal → Bool
  | .null => true
  | .undefined => true
  | _ => false

/-- Models `v === undefined`. -/
def isUndef : JSVal → Bool
  | .undefined => true
  | _ => false

/-- Models `typeof v === 'string'`. -/
def isStr : JSVal → Bool
  | .str _ => true
  | _ => false

/-- Models `Array.isArray(v)`. -/
def isArray : JSVal → Bool
  | .arr _ => true
  | .selfref => true
  | _ => false

/-- JavaScript truthiness (`Boolean(v)`): null, undefined, false, 0 and ""
are falsy; every object and array is truthy. -/
def truthy : JSVal → Bool
  | .null => false
  | .undefined => false
  | .bool b => b
  | .num n => n != 0
  | .str s => s != ""
  | .arr _ => true
  | .obj _ => true
  | .cyclic => true
  | .selfref => true

/-- Property access `v[k]` on a non-nullish value: objects look the key up,
arrays expose their elements under numeric keys (only index 0 is ever probed
by the code), every other base yields `undefined`.  The cycle markers
`cyclic` and `selfref` stand for cycles whose probed fields are absent. -/
def getField : JSVal → String → JSVal
  | .obj fs, k => ((fs.find? fun f => f.1 == k).map Prod.snd).getD JSVal.undefined
  | .arr xs, k => if k == "0" then xs.headD JSVal.undefined else JSVal.undefined
  | _, _ => JSVal.undefined

/-- Optional chaining `v?.[k]`: `undefined` when the base is nullish,
otherwise plain property access. -/
def optGet (v : JSVal) (k : String) : JSVal :=
  if isNullish v then JSVal.undefined else getField v k

/-- Models `result?.response?.candidates?.[0]` (ai.service.js line 90). -/
def candidateOf (result : JSVal) : JSVal :=
  optGet (optGet (optGet result "response") "candidates") "0"

/-- Models `candidate?.content` (line 91). -/
def contentOf (result : JSVal) : JSVal :=
  optGet (candidateOf result) "content"

/-- Models `content?.parts` (the value tested on line 93). -/
def partsOf (result : JSVal) : JSVal :=
  optGet (contentOf result) "parts"

/-- The mapper on line 95: `(p) => (p && typeof p.text === 'string' ? p.text : '')`. -/
def partText (p : JSVal) : String :=
  if truthy p then
    match getField p "text" with
    | .str s => s
    | _ => ""
  else ""

/-- Concatenation with no separator, `texts.join('')`. -/
def joinAll : List String → String
  | [] => ""
  | s :: ss => s ++ joinAll ss

/-- Models `Array.prototype.join(',')`, used by `String()` on arrays. -/
def joinComma : List String → String
  | [] => ""
  | [s] => s
  | s :: ss => s ++ "," ++ joinComma ss

mutual

/-- Whether the value contains a reference cycle, i.e. whether
`JSON.stringify` would throw a TypeError on it. -/
def containsCycle : JSVal → Bool
  | .cyclic => true
  | .selfref => true
  | .arr xs => cycList xs
  | .obj fs => cycFields fs
  | _ => false

/-- Cycle search over array elements. -/
def cycList : List JSVal → Bool
  | [] => false
  | v :: vs => containsCycle v || cycList vs

/-- Cycle search over object fields. -/
def cycFields : List (String × JSVal) → Bool
  | [] => false
  | (_, v) :: fs => containsCycle v || cycFields fs

end

/-- The character for a decimal digit `d < 10`. -/
def digitChar (d : Nat) : Char := Char.ofNat (48 + d)

/-- Decimal representation of a natural number, as JavaScript renders
integral numbers. -/
def natRepr (n : Nat) : String :=
  if _h : n < 10 then String.singleton (digitChar n)
  else natRepr (n / 10) ++ String.singleton (digitChar (n % 10))
termination_by n
decreasing_by exact Nat.div_lt_self (by omega) (by omega)

/-- Decimal representation of an integer. -/
def intRepr : Int → String
  | .ofNat m => natRepr m
  | .negSucc m => "-" ++ natRepr (m + 1)

/-- JSON escaping of a single character (quote, backslash and the common
control characters; other characters are passed through). -/
def escapeChar (c : Char) : String :=
  if c = '"' then "\\\""
  else if c = '\\' then "\\\\"
  else if c = '\n' then "\\n"
  else if c = '\r' then "\\r"
  else if c = '\t' then "\\t"
  else String.singleton c

/-- A JSON string literal: `JSON.stringify` applied to a string. -/
def jsonQuote (s : String) : String :=
  "\"" ++ String.join (s.data.map escapeChar) ++ "\""

mutual

/-- The JSON text `JSON.stringify` produces on a cycle-free value.
Per the JSON.stringify rules: `undefined` is rendered as `null` when it
occurs as an array element (the only recursive position it survives in),
and object fields whose value is `undefined` are omitted.  The `cyclic`
and `selfref` cases are unreachable: callers only apply this under a
`containsCycle` guard (stringifying a value with a cycle throws
instead). -/
def stringifyVal : JSVal → String
  | .null => "null"
  | .undefined => "null"
  | .bool b => if b then "true" else "false"
  | .num n => intRepr n
  | .str s => jsonQuote s
  | .arr xs => "[" ++ joinComma (stringifyElems xs) ++ "]"
  | .obj fs => "\x7b" ++ joinComma (stringifyFields fs) ++ "\x7d"
  | .cyclic => ""
  | .selfref => ""

/-- JSON texts of the elements of an array. -/
def stringifyElems : List JSVal → List String
  | [] => []
  | v :: vs => stringifyVal v :: stringifyElems vs

/-- JSON texts of the fields of an object; `undefined`-valued fields are
omitted, as `JSON.stringify` omits them. -/
def stringifyFields : List (String × JSVal) → List String
  | [] => []
  | (_, JSVal.undefined) :: fs => stringifyFields fs
  | (k, v) :: fs => (jsonQuote k ++ ":" ++ stringifyVal v) :: stringifyFields fs

end

mutual

/-- JavaScript `String(v)`: the ToString coercion used by the final
`catch` branch.  Objects (cyclic or not) render as "[object Object]";
arrays render as their elements joined by commas, with null and undefined
elements contributing the empty string; a back-edge to an array being
joined contributes the empty string too (`Array.prototype.join`'s cycle
guard), so `String()` of a self-referential array is `""`. -/
def jsToString : JSVal → String
  | .null => "null"
  | .undefined => "undefined"
  | .bool b => if b then "true" else "false"
  | .num n => intRepr n
  | .str s => s
  | .obj _ => "[object Object]"
  | .cyclic => "[object Object]"
  | .selfref => ""
  | .arr xs => joinComma (toStringElems xs)

/-- Models `String()` of one array element, per `Array.prototype.join`: null and
undefined elements contribute the empty string. -/
def elemToString : JSVal → String
  | JSVal.null => ""
  | JSVal.undefined => ""
  | v => jsToString v

/-- Models `String()` of the elements of an array, per `Array.prototype.join`. -/
def toStringElems : List JSVal → List String
  | [] => []
  | v :: vs => elemToString v :: toStringElems vs

end

/-- Models `JSON.stringify(v)` with the throw-on-cycle behaviour made explicit:
when `v` contains a reference cycle the call throws, modelled by the
second argument — inside the normalizer's `try`/`catch` the caught
exception is answered by `String(result)` (ai.service.js line 109). -/
def jsonStringifyTry (v result : JSVal) : String :=
  if containsCycle v then jsToString result else stringifyVal v

/-- Lines 104-110 of ai.service.js:
`try { extracted = JSON.stringify(candidate ?? result.response ?? result); }`
`catch (e) { extracted = String(result); }`.
`result.response` is a plain (non-optional) access: when `result` is
nullish it throws a TypeError, which the same `catch` answers with
`String(result)`. -/
def tryStringify (result candidate : JSVal) : String :=
  if isNullish candidate then
    if isNullish result then jsToString result
    else
      let resp := getField result "response"
      if isNullish resp then jsonStringifyTry result result
      else jsonStringifyTry resp result
  else jsonStringifyTry candidate result

/-- Lines 92-97 of ai.service.js: the value of `extracted` after the
primary extraction block.  The source guard is
`content?.parts && Array.isArray(content.parts)`; an array is always
truthy, so the guard holds exactly when `content?.parts` is an array.
`let texts = parts.map(partText).filter(Boolean)` keeps the non-empty
text strings, and `extracted` is set to `texts.join('')` only when
`texts.length > 0`. -/
def primaryExtract (result : JSVal) : JSVal :=
  match partsOf result with
  | JSVal.arr xs =>
      let texts := (xs.map partText).filter fun s => s != ""
      if texts.length > 0 then JSVal.str (joinAll texts) else JSVal.null
  | _ => JSVal.null

/-- Lines 88-114 of ai.service.js, the response-normalization chain run on
the model's result:
1. primary extraction from `candidates[0].content.parts` (lines 92-97);
2. `if (!extracted && typeof result?.response === 'string') extracted = result.response;` (line 100);
3. `if (!extracted) { try { ... JSON.stringify ... } catch { String(result) } }` (lines 103-111).
The `console.log(extracted)` on line 113 is an output side effect and does
not alter the returned value. -/
def normalize (result : JSVal) : JSVal :=
  let extracted₁ := primaryExtract result
  let extracted₂ :=
    if !truthy extracted₁ && isStr (optGet result "response")
    then optGet result "response" else extracted₁
  if !truthy extracted₂
  then JSVal.str (tryStringify result (candidateOf result))
  else extracted₂

/-- The validation error message thrown on lines 80-82 of ai.service.js
(the spec's `MissingInput` error kind). -/
def missingInputMsg : String := "generateContent requires a non-empty string prompt"

/-- Lines 78-114 of ai.service.js.  The guard
`if (!prompt || typeof prompt !== 'string') throw ...` rejects exactly the
values that are not strings together with the empty string (the only falsy
string); a non-empty string is passed unmodified to the model collaborator
`modelFn`, and the model's result is normalized.  The upstream model call is
abstracted as a pure collaborator `modelFn : String → JSVal`. -/
def generateContent (modelFn : String → JSVal) (prompt : JSVal) : Except String JSVal :=
  match prompt with
  | .str s =>
      if s = "" then Except.error missingInputMsg
      else Except.ok (normalize (modelFn s))
  | _ => Except.error missingInputMsg

/-- Modelled from the spec: the HTTP boundary (the controller, which is not
under src/) reads the `code` field from the JSON request body and forwards
it to the service (`POST /get-review` with body `{ code: string }`); the
rejection logic itself is the service guard in
src/BackEnd/src/services/ai.service.js lines 80-82. -/
def handleReview (modelFn : String → JSVal) (body : JSVal) : Except String JSVal :=
  generateContent modelFn (optGet body "code")

/-! Spec-side definitions, written from the specification's words, used to
state the claims against the code-derived definitions above. -/

/-- The `text` field of a part, when that field is a string. -/
def textOf? (p : JSVal) : Option String :=
  match getField p "text" with
  | .str s => some s
  | _ => none

/-- The non-empty string `text` fields of a parts array, in order
(spec §4.1 step 1: "filter to parts whose `text` field is a non-empty
string"). -/
def nonEmptyTexts (xs : List JSVal) : List String :=
  xs.filterMap fun p =>
    match textOf? p with
    | some s => if s == "" then none else some s
    | none => none

/-- The parts array along the candidate path, as a list (empty when
`content.parts` is not an array). -/
def partsListOf (result : JSVal) : List JSVal :=
  match partsOf result with
  | JSVal.arr xs => xs
  | _ => []

/-- A response has no text-bearing path when the primary parts extraction
finds no non-empty text and the top-level `response` field is not a
string. -/
def hasNoTextPath (result : JSVal) : Bool :=
  (nonEmptyTexts (partsListOf result)).isEmpty && !isStr (optGet result "response")

/-- Spec §4.1 step 3: "the most specific available fragment (prefer the
first candidate object; else the raw response; else the whole result)". -/
def specFragment (result : JSVal) : JSVal :=
  if !isNullish (candidateOf result) then candidateOf result
  else if !isNullish (optGet result "response") then optGet result "response"
  else result

/-- Spec-side serialization "to a machine-readable text form": JSON
serialization, failing (`none`) when it produces no string — on a value
with a reference cycle (`JSON.stringify` throws) and on `undefined`
(`JSON.stringify` returns no string). -/
def jsonSerialize? (v : JSVal) : Option String :=
  if isUndef v || containsCycle v then none else some (stringifyVal v)

/-- Spec §4.1 step 3, assembled: serialize the most specific fragment; if
serialization fails, fall back to the human-readable `String()` conversion
of the original result. -/
def specFallback (result : JSVal) : String :=
  match jsonSerialize? (specFragment result) with
  | some s => s
  | none => jsToString result

/-- Spec §4.2: a valid prompt/code value is a non-empty string (the
validation "fails with `MissingInput` when the prompt/code field is
absent, empty, or not a string"). -/
def validCode : JSVal → Bool
  | .str s => s != ""
  | _ => false

/-- Steps 2 and 3 of the chain alone, with no primary extraction: where
normalization proceeds when the primary path is skipped. -/
def afterPrimary (result : JSVal) : JSVal :=
  let extracted :=
    if isStr (optGet result "response")
    then optGet result "response" else JSVal.null
  if !truthy extracted
  then JSVal.str (tryStringify result (candidateOf result))
  else extracted

/-! ### String helpers -/

theorem eq_empty_of_data (s : String) (h : s.data = []) : s = "" := by
  cases s with
  | mk d => cases h; rfl

theorem ne_empty_of_data (s : String) (h : s.data ≠ []) : s ≠ "" :=
  fun he => h (by rw [he])

theorem data_ne_of_ne_empty (s : String) (h : s ≠ "") : s.data ≠ [] :=
  fun hd => h (eq_empty_of_data s hd)

theorem append_ne_of_left (a b : String) (h : a ≠ "") : a ++ b ≠ "" := by
  apply ne_empty_of_data
  rw [String.data_append]
  simp [data_ne_of_ne_empty a h]

theorem append_ne_of_right (a b : String) (h : b ≠ "") : a ++ b ≠ "" := by
  apply ne_empty_of_data
  rw [String.data_append]
  simp [data_ne_of_ne_empty b h]

theorem singleton_ne_empty (c : Char) : String.singleton c ≠ "" := by
  apply ne_empty_of_data
  simp [String.singleton]

/-! ### Non-emptiness of the serializers -/

theorem natRepr_ne (n : Nat) : natRepr n ≠ "" := by
  rw [natRepr]
  split
  · exact singleton_ne_empty _
  · exact append_ne_of_right _ _ (singleton_ne_empty _)

theorem intRepr_ne (n : Int) : intRepr n ≠ "" := by
  cases n with
  | ofNat m => exact natRepr_ne m
  | negSucc m => exact append_ne_of_left _ _ (by decide)

theorem jsonQuote_ne (s : String) : jsonQuote s ≠ "" := by
  unfold jsonQuote
  exact append_ne_of_right _ _ (by decide)

theorem stringifyVal_ne (v : JSVal) (h : containsCycle v = false) :
    stringifyVal v ≠ "" := by
  cases v with
  | null => decide
  | undefined => decide
  | bool b => cases b <;> decide
  | num n => simpa [stringifyVal] using intRepr_ne n
  | str s => simpa [stringifyVal] using jsonQuote_ne s
  | arr xs =>
      rw [show stringifyVal (JSVal.arr xs)
            = "[" ++ joinComma (stringifyElems xs) ++ "]" from rfl]
      exact append_ne_of_right _ _ (by decide)
  | obj fs =>
      rw [show stringifyVal (JSVal.obj fs)
            = "\x7b" ++ joinComma (stringifyFields fs) ++ "\x7d" from rfl]
      exact append_ne_of_right _ _ (by decide)
  | cyclic => simp [containsCycle] at h
  | selfref => simp [containsCycle] at h

theorem cyc_not_nullish (v : JSVal) (h : containsCycle v = true) : isNullish v = false := by
  cases v <;> simp_all [containsCycle, isNullish]

/-- JavaScript `String()` of a cycle-carrying value that is not an array:
objects — the `cyclic` marker included — render as the non-empty
"[object Object]".  (For a cycle-carrying ARRAY the rendering can be
empty: `String(a)` of `a = []; a.push(a)` is `""` — exactly the case the
`isArray` hypothesis excludes.) -/
theorem jsToString_cyc_ne (v : JSVal) (hc : containsCycle v = true)
    (ha : isArray v = false) : jsToString v ≠ "" := by
  cases v with
  | obj fs => simp only [jsToString]; decide
  | cyclic => simp only [jsToString]; decide
  | arr xs => simp [isArray] at ha
  | selfref => simp [isArray] at ha
  | _ => simp [containsCycle] at hc

/-! ### Shape lemmas for the candidate path -/

theorem isUndef_false_of_not_nullish (v : JSVal) (h : isNullish v = false) :
    isUndef v = false := by
  cases v <;> simp_all [isNullish, isUndef]

/-- Only an object can expose a non-nullish `response` field: arrays answer
named (non-index) keys with `undefined`, primitives have no such field. -/
theorem resp_obj (r : JSVal) (h : isNullish (getField r "response") = false) :
    ∃ fs, r = JSVal.obj fs := by
  cases r with
  | obj fs => exact ⟨fs, rfl⟩
  | arr xs => simp [getField, isNullish] at h
  | _ => simp [getField, isNullish] at h

theorem optGet_of_nullish (v : JSVal) (k : String) (h : isNullish v = true) :
    optGet v k = JSVal.undefined := by
  unfold optGet; rw [h]; simp

theorem optGet_of_not_nullish (v : JSVal) (k : String) (h : isNullish v = false) :
    optGet v k = getField v k := by
  unfold optGet; rw [h]; simp

/-- A non-nullish first candidate forces the result to be an object (the
chain starts at `result?.response`). -/
theorem candidate_obj (r : JSVal) (h : isNullish (candidateOf r) = false) :
    ∃ fs, r = JSVal.obj fs := by
  by_cases hr : isNullish (getField r "response") = true
  · exfalso
    have hnull : isNullish (candidateOf r) = true := by
      unfold candidateOf
      by_cases hb : isNullish r = true
      · rw [optGet_of_nullish r _ hb]; decide
      · have hb2 : isNullish r = false := by simpa using hb
        have hresp : getField r "response" = JSVal.null ∨
            getField r "response" = JSVal.undefined := by
          cases hx : getField r "response" <;> simp_all [isNullish]
        rw [optGet_of_not_nullish r _ hb2]
        rcases hresp with hx | hx <;> rw [hx] <;> decide
    rw [hnull] at h; cases h
  · exact resp_obj r (by simpa using hr)

/-- The fallback expression of lines 103-111 never produces the empty
string, unless the result is itself a cycle-carrying array — there the
`catch` runs `String(result)`, whose rendering can be empty. -/
theorem tryStringify_ne (r : JSVal) (hra : (isArray r && containsCycle r) = false) :
    tryStringify r (candidateOf r) ≠ "" := by
  unfold tryStringify jsonStringifyTry
  by_cases hc : isNullish (candidateOf r) = true
  · rw [if_pos hc]
    by_cases hr : isNullish r = true
    · rw [if_pos hr]
      cases r <;> simp_all [isNullish] <;> simp [jsToString]
    · rw [if_neg hr]
      by_cases hresp : isNullish (getField r "response") = true
      · rw [if_pos hresp]
        by_cases hcyc : containsCycle r = true
        · rw [if_pos hcyc]
          have ha : isArray r = false := by simp [hcyc] at hra; exact hra
          exact jsToString_cyc_ne r hcyc ha
        · rw [if_neg hcyc]
          exact stringifyVal_ne r (by simpa using hcyc)
      · rw [if_neg hresp]
        by_cases hcyc : containsCycle (getField r "response") = true
        · rw [if_pos hcyc]
          obtain ⟨fs, rfl⟩ := resp_obj r (by simpa using hresp)
          simp only [jsToString]; decide
        · rw [if_neg hcyc]
          exact stringifyVal_ne _ (by simpa using hcyc)
  · rw [if_neg hc]
    by_cases hcyc : containsCycle (candidateOf r) = true
    · rw [if_pos hcyc]
      obtain ⟨fs, rfl⟩ := candidate_obj r (by simpa using hc)
      simp only [jsToString]; decide
    · rw [if_neg hcyc]
      exact stringifyVal_ne _ (by simpa using hcyc)

/-! ### The primary extraction -/

/-- A value whose `text` field is a string is an object, hence truthy. -/
theorem truthy_of_text_str (p : JSVal) (s : String)
    (h : getField p "text" = JSVal.str s) : truthy p = true := by
  cases p with
  | obj fs => simp [truthy]
  | arr xs => simp [getField] at h
  | _ => simp [getField] at h

theorem partText_of_text_str (p : JSVal) (s : String)
    (h : getField p "text" = JSVal.str s) : partText p = s := by
  unfold partText
  rw [truthy_of_text_str p s h, h]
  simp

theorem partText_of_no_text (p : JSVal) (h : textOf? p = none) : partText p = "" := by
  unfold partText
  unfold textOf? at h
  rcases hx : getField p "text" with _ | _ | b | n | s | a | o | _ <;> simp_all

/-- The list the code builds on line 95,
`parts.map(p => ...).filter(Boolean)`, is exactly the list of non-empty
string `text` fields. -/
theorem texts_filter_eq (xs : List JSVal) :
    ((xs.map partText).filter fun s => s != "") = nonEmptyTexts xs := by
  induction xs with
  | nil => rfl
  | cons p rest ih =>
    rw [List.map_cons, List.filter_cons]
    unfold nonEmptyTexts
    rw [List.filterMap_cons]
    rcases hx : textOf? p with _ | s
    · rw [partText_of_no_text p hx]
      simpa [nonEmptyTexts] using ih
    · have hs : getField p "text" = JSVal.str s := by
        unfold textOf? at hx
        rcases hg : getField p "text" with _ | _ | b | n | t | a | o | _ <;>
          rw [hg] at hx <;> simp_all
      rw [partText_of_text_str p s hs]
      by_cases he : s = ""
      · subst he; simpa [nonEmptyTexts] using ih
      · have : (s != "") = true := by simpa using he
        simp only [this, if_true, he, if_false]
        simpa [nonEmptyTexts, he] using congrArg (List.cons s) ih

theorem mem_nonEmptyTexts_ne (xs : List JSVal) (s : String)
    (h : s ∈ nonEmptyTexts xs) : s ≠ "" := by
  unfold nonEmptyTexts at h
  rw [List.mem_filterMap] at h
  obtain ⟨p, _, hp⟩ := h
  rcases hx : textOf? p with _ | t <;> rw [hx] at hp
  · cases hp
  · by_cases he : t = ""
    · simp [he] at hp
    · simp only [he, if_false] at hp
      simp at hp
      rw [← hp.2]
      exact he

theorem joinAll_ne (l : List String) (hall : ∀ s ∈ l, s ≠ "") (hne : l ≠ []) :
    joinAll l ≠ "" := by
  cases l with
  | nil => exact absurd rfl hne
  | cons s ss =>
    rw [show joinAll (s :: ss) = s ++ joinAll ss from rfl]
    exact append_ne_of_left _ _ (hall s (by simp))

/-- Rewrites `primaryExtract` in terms of the spec-side text list. -/
theorem primaryExtract_eq (r : JSVal) :
    primaryExtract r =
      (if nonEmptyTexts (partsListOf r) = [] then JSVal.null
       else JSVal.str (joinAll (nonEmptyTexts (partsListOf r)))) := by
  unfold primaryExtract partsListOf
  rcases hp : partsOf r with _ | _ | b | n | s | xs | fs | _ <;>
    simp only []
  case arr =>
    rw [texts_filter_eq]
    by_cases he : nonEmptyTexts xs = []
    · simp [he]
    · have : 0 < (nonEmptyTexts xs).length := by
        cases hq : nonEmptyTexts xs with
        | nil => exact absurd hq he
        | cons a l => simp [hq]
      simp [he, this]
  all_goals simp [nonEmptyTexts]

/-- When the parts value is not an array the primary step assigns nothing. -/
theorem primaryExtract_null_of_not_array (r : JSVal)
    (h : isArray (partsOf r) = false) : primaryExtract r = JSVal.null := by
  unfold primaryExtract
  rcases hp : partsOf r with _ | _ | b | n | s | xs | fs | _ <;> simp only []
  case arr => rw [hp] at h; simp [isArray] at h

theorem primaryExtract_null_of_no_texts (r : JSVal)
    (h : nonEmptyTexts (partsListOf r) = []) : primaryExtract r = JSVal.null := by
  rw [primaryExtract_eq, if_pos h]

/-! ### Behaviour of the whole chain -/

/-- When the primary path finds non-empty texts, the chain returns their
concatenation. -/
theorem normalize_of_primary (r : JSVal) (xs : List JSVal)
    (hp : partsOf r = JSVal.arr xs) (hne : nonEmptyTexts xs ≠ []) :
    normalize r = JSVal.str (joinAll (nonEmptyTexts xs)) := by
  have hlist : partsListOf r = xs := by unfold partsListOf; rw [hp]
  have h1 : primaryExtract r = JSVal.str (joinAll (nonEmptyTexts xs)) := by
    rw [primaryExtract_eq, hlist, if_neg hne]
  have hjoin : joinAll (nonEmptyTexts xs) ≠ "" :=
    joinAll_ne _ (fun s hs => mem_nonEmptyTexts_ne xs s hs) hne
  simp only [normalize]
  rw [h1]
  simp [truthy, bne_iff_ne, hjoin]

/-- When the primary path finds nothing and the `response` field is a
non-empty string, the chain returns it. -/
theorem normalize_secondary (r : JSVal) (s : String)
    (hp : nonEmptyTexts (partsListOf r) = [])
    (hr : optGet r "response" = JSVal.str s) (hs : s ≠ "") :
    normalize r = JSVal.str s := by
  have h1 := primaryExtract_null_of_no_texts r hp
  simp only [normalize]
  rw [h1, hr]
  simp [truthy, isStr, bne_iff_ne, hs]

/-- When the primary path finds nothing and the `response` field is not a
string, the chain falls through to the serialization fallback. -/
theorem normalize_fallback (r : JSVal)
    (hp : nonEmptyTexts (partsListOf r) = [])
    (hr : isStr (optGet r "response") = false) :
    normalize r = JSVal.str (tryStringify r (candidateOf r)) := by
  have h1 := primaryExtract_null_of_no_texts r hp
  simp only [normalize]
  rw [h1, hr]
  simp [truthy]

/-- When the primary path finds nothing and the `response` field is the
empty string, `extracted` is falsy again and the fallback still runs. -/
theorem normalize_fallback_empty_resp (r : JSVal)
    (hp : nonEmptyTexts (partsListOf r) = [])
    (hr : optGet r "response" = JSVal.str "") :
    normalize r = JSVal.str (tryStringify r (candidateOf r)) := by
  have h1 := primaryExtract_null_of_no_texts r hp
  simp only [normalize]
  rw [h1, hr]
  simp [truthy, isStr]

/-- The chain always produces a string, on every input. -/
theorem normalize_str (r : JSVal) : ∃ s, normalize r = JSVal.str s := by
  by_cases hp : nonEmptyTexts (partsListOf r) = []
  · by_cases hs : isStr (optGet r "response") = true
    · obtain ⟨t, ht⟩ : ∃ t, optGet r "response" = JSVal.str t := by
        rcases hx : optGet r "response" with _ | _ | b | n | t | a | o | _ | _ <;>
          first
          | exact ⟨t, rfl⟩
          | (rw [hx] at hs; simp [isStr] at hs)
      by_cases hte : t = ""
      · subst hte
        exact ⟨_, normalize_fallback_empty_resp r hp ht⟩
      · exact ⟨t, normalize_secondary r t hp ht hte⟩
    · exact ⟨_, normalize_fallback r hp (by simpa using hs)⟩
  · obtain ⟨xs, hxs⟩ : ∃ xs, partsOf r = JSVal.arr xs := by
      unfold partsListOf at hp
      rcases hq : partsOf r with _ | _ | b | n | s | xs | fs | _ | _ <;>
        rw [hq] at hp <;> simp_all [nonEmptyTexts]
    have hlist : partsListOf r = xs := by unfold partsListOf; rw [hxs]
    rw [hlist] at hp
    exact ⟨_, normalize_of_primary r xs hxs hp⟩

/-- The chain's string is non-empty whenever the result is not itself a
cycle-carrying array: the primary and secondary successes are non-empty by
construction, and the fallback is non-empty except through
`String(result)` on a cyclic array. -/
theorem normalize_str_ne (r : JSVal) (hra : (isArray r && containsCycle r) = false) :
    ∃ s, normalize r = JSVal.str s ∧ s ≠ "" := by
  by_cases hp : nonEmptyTexts (partsListOf r) = []
  · by_cases hs : isStr (optGet r "response") = true
    · obtain ⟨t, ht⟩ : ∃ t, optGet r "response" = JSVal.str t := by
        rcases hx : optGet r "response" with _ | _ | b | n | t | a | o | _ | _ <;>
          first
          | exact ⟨t, rfl⟩
          | (rw [hx] at hs; simp [isStr] at hs)
      by_cases hte : t = ""
      · subst hte
        exact ⟨_, normalize_fallback_empty_resp r hp ht, tryStringify_ne r hra⟩
      · exact ⟨t, normalize_secondary r t hp ht hte, hte⟩
    · exact ⟨_, normalize_fallback r hp (by simpa using hs), tryStringify_ne r hra⟩
  · obtain ⟨xs, hxs⟩ : ∃ xs, partsOf r = JSVal.arr xs := by
      unfold partsListOf at hp
      rcases hq : partsOf r with _ | _ | b | n | s | xs | fs | _ | _ <;>
        rw [hq] at hp <;> simp_all [nonEmptyTexts]
    have hlist : partsListOf r = xs := by unfold partsListOf; rw [hxs]
    rw [hlist] at hp
    exact ⟨_, normalize_of_primary r xs hxs hp,
      joinAll_ne _ (fun s hs => mem_nonEmptyTexts_ne xs s hs) hp⟩

/-- When `content.parts` is not an array the chain behaves exactly as the
later steps alone. -/
theorem normalize_eq_afterPrimary (r : JSVal) (h : isArray (partsOf r) = false) :
    normalize r = afterPrimary r := by
  have h1 := primaryExtract_null_of_not_array r h
  simp only [normalize, afterPrimary]
  rw [h1]
  simp [truthy]

/-! ### The fallback agrees with the spec's description of it -/

theorem jsonStringifyTry_eq_serialize (v r : JSVal) (hu : isUndef v = false) :
    jsonStringifyTry v r =
      (match jsonSerialize? v with
       | some s => s
       | none => jsToString r) := by
  unfold jsonStringifyTry jsonSerialize?
  rw [hu]
  by_cases hcy : containsCycle v = true
  · rw [hcy]; simp
  · have h2 : containsCycle v = false := by simpa using hcy
    rw [h2]; simp

/-- The code's `try JSON.stringify(candidate ?? result.response ?? result)`
`catch { String(result) }` computes exactly the spec's fallback path:
serialize the most specific fragment, and on serialization failure take
the human-readable conversion of the whole result. -/
theorem tryStringify_eq_specFallback (r : JSVal) :
    tryStringify r (candidateOf r) = specFallback r := by
  by_cases hc : isNullish (candidateOf r) = true
  · -- candidate nullish
    unfold tryStringify specFallback specFragment
    rw [hc]
    simp only [Bool.not_true, if_pos rfl, Bool.false_eq_true, if_false]
    by_cases hr : isNullish r = true
    · -- `result.response` throws; spec serializes the whole (nullish) result
      rw [if_pos hr, optGet_of_nullish r _ hr]
      simp only [show isNullish JSVal.undefined = true from rfl, Bool.not_true,
        Bool.false_eq_true, if_false]
      rcases r with _ | _ | b | n | s | xs | fs | _ <;> simp_all [isNullish] <;>
        simp [jsonSerialize?, isUndef, containsCycle, stringifyVal, jsToString]
    · have hr2 : isNullish r = false := by simpa using hr
      rw [if_neg hr, optGet_of_not_nullish r _ hr2]
      by_cases hresp : isNullish (getField r "response") = true
      · rw [if_pos hresp, hresp]
        simp only [Bool.not_true, Bool.false_eq_true, if_false]
        exact jsonStringifyTry_eq_serialize r r (isUndef_false_of_not_nullish r hr2)
      · have hresp2 : isNullish (getField r "response") = false := by simpa using hresp
        rw [if_neg hresp, hresp2]
        simp only [Bool.not_false, if_true]
        exact jsonStringifyTry_eq_serialize (getField r "response") r
          (isUndef_false_of_not_nullish _ hresp2)
  · -- candidate non-nullish: both serialize the candidate
    have hc2 : isNullish (candidateOf r) = false := by simpa using hc
    unfold tryStringify specFallback specFragment
    rw [hc2]
    simp only [Bool.not_false, if_true, Bool.false_eq_true, if_false]
    exact jsonStringifyTry_eq_serialize (candidateOf r) r
      (isUndef_false_of_not_nullish _ hc2)

/-! ### Concrete responses used as counterexamples and witnesses -/

/-- A response whose only part has the empty string as its `text` field. -/
def respEmptyText : JSVal :=
  JSVal.obj [("response", JSVal.obj [("candidates", JSVal.arr
    [JSVal.obj [("content", JSVal.obj [("parts", JSVal.arr
      [JSVal.obj [("text", JSVal.str "")]])])]])])]

/-- The spec §8 example: parts `[{text:"Looks "}, {other:1}, {text:"good."}]`. -/
def respLooksGood : JSVal :=
  JSVal.obj [("response", JSVal.obj [("candidates", JSVal.arr
    [JSVal.obj [("content", JSVal.obj [("parts", JSVal.arr
      [JSVal.obj [("text", JSVal.str "Looks ")],
       JSVal.obj [("other", JSVal.num 1)],
       JSVal.obj [("text", JSVal.str "good.")]])])]])])]

/-- Like `respLooksGood` but with an extra unrelated top-level field and the same
parts array. -/
def respLooksGoodExtra : JSVal :=
  JSVal.obj [("padding", JSVal.num 7),
    ("response", JSVal.obj [("candidates", JSVal.arr
    [JSVal.obj [("content", JSVal.obj [("parts", JSVal.arr
      [JSVal.obj [("text", JSVal.str "Looks ")],
       JSVal.obj [("other", JSVal.num 1)],
       JSVal.obj [("text", JSVal.str "good.")]])])]])])]

/-- A response with a top-level empty-string `response` field. -/
def respEmptyString : JSVal := JSVal.obj [("response", JSVal.str "")]

/-- A response containing a reference cycle and no text-bearing path. -/
def respCyclic : JSVal := JSVal.obj [("self", JSVal.cyclic)]

/-- A self-referential array, `a = []; a.push(a)`: its single element is a
back-edge to the array itself. -/
def selfArray : JSVal := JSVal.arr [JSVal.selfref]

/-! ## The claims -/

/-- C1 (counterexample): the claim promises the concatenation of the `text`
fields of exactly those parts whose `text` is a string — for
`respEmptyText`, whose single part carries the string `""`, that
concatenation is `""` — but the code drops empty-string texts
(`filter(Boolean)` on line 95), finds no text, and falls through to the
serialization fallback instead of returning `""`. -/
theorem claim1_counterexample :
    partsOf respEmptyText = JSVal.arr [JSVal.obj [("text", JSVal.str "")]]
    ∧ textOf? (JSVal.obj [("text", JSVal.str "")]) = some ""
    ∧ normalize respEmptyText ≠ JSVal.str "" :=
  ⟨rfl, rfl, by
    intro h
    exact absurd (JSVal.str.inj h) (by decide)⟩

/-- C1 (amended): for every ModelResponse whose first candidate's content
holds a parts array containing at least one part whose `text` field is a
non-empty string, `normalize` returns the concatenation, in original array
order and with no separator, of the `text` fields of exactly those parts
whose `text` is a non-empty string. -/
theorem claim1_primary_concat (r : JSVal) (xs : List JSVal)
    (hp : partsOf r = JSVal.arr xs) (hne : nonEmptyTexts xs ≠ []) :
    normalize r = JSVal.str (joinAll (nonEmptyTexts xs)) :=
  normalize_of_primary r xs hp hne

/-- C1 witness: the spec §8 example evaluates to `"Looks good."`. -/
theorem claim1_primary_concat_witness :
    normalize respLooksGood = JSVal.str "Looks good." :=
  claim1_primary_concat respLooksGood
    [JSVal.obj [("text", JSVal.str "Looks ")],
     JSVal.obj [("other", JSVal.num 1)],
     JSVal.obj [("text", JSVal.str "good.")]]
    rfl (by decide)

/-- C2: for every input value, the result of normalization is a string —
never an object, never null, never undefined — even when text extraction
fails at every step.  (`normalize` returns a `JSVal`, the JavaScript value
of the variable `extracted` at the return; the theorem shows it is always a
`str`.) -/
theorem claim2_always_string (r : JSVal) : ∃ s, normalize r = JSVal.str s :=
  normalize_str r

/-- C3 (counterexample): a self-referential array — `a = []; a.push(a)` —
has no text-bearing path, and `normalize` returns the EMPTY string on it,
not a non-empty one: `JSON.stringify(a)` throws on the cycle, the `catch`
answers `String(a)`, and `Array.prototype.join`'s cycle guard renders the
back-edge as `""`. -/
theorem claim3_counterexample :
    hasNoTextPath selfArray = true
    ∧ normalize selfArray = JSVal.str "" := by
  constructor
  · rfl
  · have h1 : normalize selfArray
        = JSVal.str (tryStringify selfArray (candidateOf selfArray)) :=
      normalize_fallback selfArray rfl rfl
    have h2 : tryStringify selfArray (candidateOf selfArray) = "" := by
      simp [tryStringify, jsonStringifyTry, selfArray, candidateOf, optGet, getField,
        isNullish, containsCycle, cycList, jsToString, toStringElems, elemToString,
        joinComma]
    rw [h1, h2]

/-- C3 (amended): for every ModelResponse with no text-bearing paths,
`normalize` returns a string and never raises — `normalize` is a total
Lean function over all of `JSVal`, including `null`, `undefined` and
cycle-containing values — and the string is non-empty except possibly
when the response value is itself an array carrying a reference cycle,
whose `String()` conversion can be empty (e.g. a self-referential
array). -/
theorem claim3_no_text_string (r : JSVal) (_h : hasNoTextPath r = true) :
    ∃ s, normalize r = JSVal.str s
      ∧ ((isArray r && containsCycle r) = false → s ≠ "") := by
  by_cases hra : (isArray r && containsCycle r) = false
  · obtain ⟨s, h1, h2⟩ := normalize_str_ne r hra
    exact ⟨s, h1, fun _ => h2⟩
  · obtain ⟨s, h1⟩ := normalize_str r
    exact ⟨s, h1, fun hc => absurd hc hra⟩

/-- C3 witness: `null`, `undefined` and a cyclic-object response all
normalize to strings, non-empty since none of them is a cyclic array. -/
theorem claim3_no_text_string_witness :
    (∃ s, normalize JSVal.null = JSVal.str s
      ∧ ((isArray JSVal.null && containsCycle JSVal.null) = false → s ≠ ""))
    ∧ (∃ s, normalize JSVal.undefined = JSVal.str s
      ∧ ((isArray JSVal.undefined && containsCycle JSVal.undefined) = false → s ≠ ""))
    ∧ (∃ s, normalize respCyclic = JSVal.str s
      ∧ ((isArray respCyclic && containsCycle respCyclic) = false → s ≠ "")) :=
  ⟨claim3_no_text_string JSVal.null rfl,
   claim3_no_text_string JSVal.undefined rfl,
   claim3_no_text_string respCyclic rfl⟩

/-- C4 (counterexample): at `respEmptyString` the primary path is absent
and the top-level `response` field is the string `""`, yet `normalize`
does not return it unchanged: `""` is falsy, so `!extracted` re-fires on
line 103 and the fallback serializes `""` to the two-character JSON text
`"\"\""`. -/
theorem claim4_counterexample :
    nonEmptyTexts (partsListOf respEmptyString) = []
    ∧ optGet respEmptyString "response" = JSVal.str ""
    ∧ normalize respEmptyString ≠ JSVal.str "" :=
  ⟨rfl, rfl, by
    intro h
    exact absurd (JSVal.str.inj h) (by decide)⟩

/-- C4 (amended): for every ModelResponse whose primary text path is
entirely empty or absent and whose top-level `response` field is a
NON-EMPTY string, `normalize` returns that string unchanged. -/
theorem claim4_secondary_string (r : JSVal) (s : String)
    (hp : nonEmptyTexts (partsListOf r) = [])
    (hr : optGet r "response" = JSVal.str s) (hs : s ≠ "") :
    normalize r = JSVal.str s :=
  normalize_secondary r s hp hr hs

/-- C4 witness: `{ response: "plain text" }` normalizes to `"plain text"`. -/
theorem claim4_secondary_string_witness :
    normalize (JSVal.obj [("response", JSVal.str "plain text")])
      = JSVal.str "plain text" :=
  claim4_secondary_string (JSVal.obj [("response", JSVal.str "plain text")])
    "plain text" rfl rfl (by decide)

/-- C5: when the primary path finds nothing and the top-level `response`
is not a string, `normalize` returns the spec's fallback: the JSON
serialization of the most specific available fragment (first candidate,
else raw response, else the whole result), and, when that serialization
fails to produce a string, the best-effort human-readable `String()`
conversion of the original result. -/
theorem claim5_fallback_serialization (r : JSVal)
    (hp : nonEmptyTexts (partsListOf r) = [])
    (hr : isStr (optGet r "response") = false) :
    normalize r = JSVal.str (specFallback r) := by
  rw [normalize_fallback r hp hr, tryStringify_eq_specFallback r]

/-- C5 witness: at `null` both paths fail and the fallback yields the
serialization of the whole result. -/
theorem claim5_fallback_serialization_witness :
    normalize JSVal.null = JSVal.str (specFallback JSVal.null) :=
  claim5_fallback_serialization JSVal.null rfl rfl

/-- C6: the fallback steps are tried in strict order with first success
winning: whenever the primary path yields a non-empty concatenation,
`normalize` returns exactly that concatenation, and the result is
independent of everything outside the parts array — any other result
carrying the same parts array normalizes identically, whatever its
`response` field or serialization would have produced. -/
theorem claim6_first_success_wins (r r2 : JSVal) (xs : List JSVal)
    (hp : partsOf r = JSVal.arr xs) (hp2 : partsOf r2 = JSVal.arr xs)
    (hne : nonEmptyTexts xs ≠ []) :
    normalize r = JSVal.str (joinAll (nonEmptyTexts xs))
    ∧ normalize r = normalize r2 := by
  constructor
  · exact normalize_of_primary r xs hp hne
  · rw [normalize_of_primary r xs hp hne, normalize_of_primary r2 xs hp2 hne]

/-- C6 witness: two results sharing the same parts array but differing
elsewhere normalize to the same primary concatenation. -/
theorem claim6_first_success_wins_witness :
    normalize respLooksGood = JSVal.str (joinAll (nonEmptyTexts
      [JSVal.obj [("text", JSVal.str "Looks ")],
       JSVal.obj [("other", JSVal.num 1)],
       JSVal.obj [("text", JSVal.str "good.")]]))
    ∧ normalize respLooksGood = normalize respLooksGoodExtra :=
  claim6_first_success_wins respLooksGood respLooksGoodExtra
    [JSVal.obj [("text", JSVal.str "Looks ")],
     JSVal.obj [("other", JSVal.num 1)],
     JSVal.obj [("text", JSVal.str "good.")]]
    rfl rfl (by decide)

/-- C7: validation fails with `MissingInput` exactly when the code/prompt
field is absent, empty, or not a string (`validCode` is false), and a
failing input is never escalated to the model call: on a failing input the
outcome is the same for every model collaborator, so the model is never
consulted. -/
theorem claim7_validation (m m2 : String → JSVal) (body : JSVal) :
    ((∃ e, handleReview m body = Except.error e)
        ↔ validCode (optGet body "code") = false)
    ∧ (validCode (optGet body "code") = false
        → handleReview m body = handleReview m2 body) := by
  unfold handleReview generateContent validCode
  rcases optGet body "code" with _ | _ | b | n | s | a | o | _ <;>
    simp only []
  case str =>
    by_cases hs : s = ""
    · subst hs
      simp
    · have h2 : (s != "") = true := by simpa using hs
      rw [if_neg hs, h2]
      simp
  all_goals simp

/-- C7 witness at the spec's concrete inputs: `{}` and `{ code: "" }` are
rejected independently of the model collaborator. -/
theorem claim7_validation_witness :
    (∃ e, handleReview (fun _ => JSVal.null) (JSVal.obj []) = Except.error e)
    ∧ (∃ e, handleReview (fun _ => JSVal.null)
        (JSVal.obj [("code", JSVal.str "")]) = Except.error e)
    ∧ handleReview (fun _ => JSVal.null) (JSVal.obj [])
        = handleReview (fun s => JSVal.str s) (JSVal.obj []) :=
  ⟨(claim7_validation (fun _ => JSVal.null) (fun s => JSVal.str s)
      (JSVal.obj [])).1.mpr rfl,
   (claim7_validation (fun _ => JSVal.null) (fun s => JSVal.str s)
      (JSVal.obj [("code", JSVal.str "")])).1.mpr rfl,
   (claim7_validation (fun _ => JSVal.null) (fun s => JSVal.str s)
      (JSVal.obj [])).2 rfl⟩

/-- C8: every non-empty string prompt passes validation and the exact,
unmodified string — no trimming, no length capping — is the argument
supplied to the model-invocation collaborator, whose normalized answer is
returned. -/
theorem claim8_exact_passthrough (m : String → JSVal) (s : String) (hs : s ≠ "") :
    generateContent m (JSVal.str s) = Except.ok (normalize (m s)) := by
  simp only [generateContent]
  rw [if_neg hs]

/-- C8 witness: the prompt `"x"` is forwarded as exactly `"x"`. -/
theorem claim8_exact_passthrough_witness :
    generateContent (fun t => JSVal.obj [("echo", JSVal.str t)]) (JSVal.str "x")
      = Except.ok (normalize (JSVal.obj [("echo", JSVal.str "x")])) :=
  claim8_exact_passthrough (fun t => JSVal.obj [("echo", JSVal.str t)]) "x"
    (by decide)

/-- C9: the primary extraction is total over arbitrarily malformed parts
entries — any entry without a string `text` field (null, undefined,
primitives, objects without one) contributes the empty string, i.e. no
text — and when `content.parts` is present but not an array the primary
path is skipped entirely: normalization coincides with the later steps
alone (`afterPrimary`). -/
theorem claim9_malformed_parts :
    (∀ p, textOf? p = none → partText p = "")
    ∧ (∀ r, isArray (partsOf r) = false → normalize r = afterPrimary r) :=
  ⟨fun p hp => partText_of_no_text p hp,
   fun r hr => normalize_eq_afterPrimary r hr⟩

/-- C9 witness: a null entry contributes no text, and a non-array `parts`
value (here the string `"x"`) sends normalization to the later steps. -/
theorem claim9_malformed_parts_witness :
    partText JSVal.null = ""
    ∧ normalize (JSVal.obj [("response", JSVal.obj [("candidates", JSVal.arr
        [JSVal.obj [("content", JSVal.obj [("parts", JSVal.str "x")])]])])])
      = afterPrimary (JSVal.obj [("response", JSVal.obj [("candidates", JSVal.arr
        [JSVal.obj [("content", JSVal.obj [("parts", JSVal.str "x")])]])])]) :=
  ⟨claim9_malformed_parts.1 JSVal.null rfl,
   claim9_malformed_parts.2 (JSVal.obj [("response", JSVal.obj [("candidates",
      JSVal.arr [JSVal.obj [("content", JSVal.obj [("parts",
      JSVal.str "x")])]])])]) rfl⟩

/-- C10: a whitespace-only code string such as `" "` is truthy, so it is
accepted by validation and forwarded verbatim to the model call (only the
empty string, absent values and non-strings are rejected — that is C7's
characterization). -/
theorem claim10_whitespace_accepted (m : String → JSVal) (s : String) (hs : s ≠ "") :
    handleReview m (JSVal.obj [("code", JSVal.str s)])
      = Except.ok (normalize (m s)) := by
  unfold handleReview
  have hfield : optGet (JSVal.obj [("code", JSVal.str s)]) "code" = JSVal.str s := rfl
  rw [hfield]
  simp only [generateContent]
  rw [if_neg hs]

/-- C10 witness: the one-space string is accepted and forwarded as `" "`. -/
theorem claim10_whitespace_accepted_witness :
    handleReview (fun t => JSVal.obj [("echo", JSVal.str t)])
        (JSVal.obj [("code", JSVal.str " ")])
      = Except.ok (normalize (JSVal.obj [("echo", JSVal.str " ")])) :=
  claim10_whitespace_accepted (fun t => JSVal.obj [("echo", JSVal.str t)]) " "
    (by decide)

end AIService
